import Mathlib

/-!
Verification of the GDT invoice-import pipeline.

This file gives a shallow embedding of the control logic of the repository
(`temporal_app/workflows/gdt_invoice_import.py`,
`temporal_app/activities/gdt_discovery.py`, `temporal_app/activities/hooks.py`,
`direct_gdt_integration.py`, `app/main.py`) and proves or refutes the stated
properties of that logic.  Python floats that only feed comparisons and sleeps
are modelled as rationals; machine integers are unbounded in Python, so `Nat`
and `Int` are used directly; exceptions are modelled with `Except`/`Option`.
-/

/-- An invoice record (`GdtInvoice` dataclass in `temporal_app/models.py`).
The `metadata` dict (string keys to string values) is modelled as an
association list; in this code base the metadata dict literals are built in a
fixed key order, so Python dict equality coincides with list equality here. -/
structure GdtInvoice where
  invoice_id : String
  invoice_number : String
  invoice_date : String
  invoice_type : String
  amount : ℚ
  tax_amount : ℚ
  supplier_name : String
  supplier_tax_code : String
  metadata : List (String × String)
deriving DecidableEq

/-- Result of fetching a single invoice (`InvoiceFetchResult` dataclass in
`temporal_app/models.py`).  The fetched JSON payload and XML content are not
interpreted by the workflow logic and are modelled as uninterpreted strings. -/
structure InvoiceFetchResult where
  invoice_id : String
  success : Bool
  data : Option String := none
  error : Option String := none
  invoice_xml : Option String := none
deriving DecidableEq

/-- Adaptive batch sizing configuration (`BatchConfig` dataclass in
`temporal_app/workflows/gdt_invoice_import.py`), before `__post_init__`
runs.  Field defaults mirror the dataclass defaults. -/
structure BatchConfig where
  batch_size : Nat := 8
  min_batch_size : Nat := 3
  max_batch_size : Nat := 10
  delay : ℚ := 1
  base_delay : ℚ := 1
  processing_mode : String := "sequential"
deriving DecidableEq

/-- Python `min` on two values (returns the first argument on ties). -/
def pyMinQ (a b : ℚ) : ℚ :=
  if a ≤ b then a else b

/-- `BatchConfig.__post_init__`: initialize `delay` from `base_delay`, then
override the settings for sequential mode. -/
def BatchConfig.postInit (c : BatchConfig) : BatchConfig :=
  let c1 := { c with delay := c.base_delay }
  if c1.processing_mode = "sequential" then
    { c1 with batch_size := 1, min_batch_size := 1, max_batch_size := 1,
              base_delay := 2, delay := 2 }
  else c1

/-- `BatchConfig(processing_mode=mode)` as constructed by
`_process_invoice_batches`: every other field keeps its dataclass default,
and `__post_init__` runs. -/
def mkBatchConfig (mode : String) : BatchConfig :=
  BatchConfig.postInit { processing_mode := mode }

/-- `BatchConfig.reduce_batch_size`: `batch_size = max(min_batch_size,
batch_size - 2)`.  Truncated `Nat` subtraction agrees with Python here
because `min_batch_size` is nonnegative. -/
def BatchConfig.reduceBatchSize (c : BatchConfig) : BatchConfig :=
  { c with batch_size := max c.min_batch_size (c.batch_size - 2) }

/-- `BatchConfig.increase_batch_size`: `batch_size = min(max_batch_size,
batch_size + 1)`. -/
def BatchConfig.increaseBatchSize (c : BatchConfig) : BatchConfig :=
  { c with batch_size := min c.max_batch_size (c.batch_size + 1) }

/-- `BatchConfig.increase_delay`: `delay = min(5.0, base_delay * (1 +
rate_limit_errors))`. -/
def BatchConfig.increaseDelay (c : BatchConfig) (rateLimitErrors : Nat) : BatchConfig :=
  { c with delay := pyMinQ 5 (c.base_delay * ((1 : ℚ) + (rateLimitErrors : ℚ))) }

/-- `BatchConfig.reset_delay`: `delay = base_delay`. -/
def BatchConfig.resetDelay (c : BatchConfig) : BatchConfig :=
  { c with delay := c.base_delay }

/-- One call to `reduce_batch_size` or `increase_batch_size`. -/
inductive BatchOp where
  | reduce
  | increase
deriving DecidableEq

/-- A sequence of `reduce_batch_size` / `increase_batch_size` calls applied
to a `BatchConfig`. -/
def applyBatchOps (c : BatchConfig) (ops : List BatchOp) : BatchConfig :=
  ops.foldl (fun c op =>
    match op with
    | .reduce => c.reduceBatchSize
    | .increase => c.increaseBatchSize) c

/-- Statistics for one batch (`BatchStats` dataclass). -/
structure BatchStats where
  successes : Nat := 0
  failures : Nat := 0
  rate_limit_errors : Nat := 0
deriving DecidableEq

/-- Substring test on strings, used to model Python `in` on `str`. -/
def strContains (hay needle : String) : Bool :=
  hay.toList.tails.any (fun t => needle.toList.isPrefixOf t)

/-- ASCII lowercasing of one character; the error messages classified by
`_is_rate_limit_error` are ASCII, where Python `str.lower` acts this way. -/
def lowerChar (ch : Char) : Char :=
  if 65 ≤ ch.toNat ∧ ch.toNat ≤ 90 then Char.ofNat (ch.toNat + 32) else ch

/-- `str.lower()` on the ASCII strings this code handles. -/
def strLower (s : String) : String :=
  String.mk (s.toList.map lowerChar)

/-- `GdtInvoiceImportWorkflow._is_rate_limit_error`: a falsy (absent or
empty) error is not a rate-limit error; otherwise look for `"429"` or
`"rate limit"` in the lowercased message. -/
def isRateLimitError (error : Option String) : Bool :=
  match error with
  | none => false
  | some e =>
    if e = "" then false
    else
      let s := strLower e
      strContains s "429" || strContains s "rate limit"

/-- `GdtInvoiceImportWorkflow._analyze_batch_results`.  Every element of a
batch result list is an `InvoiceFetchResult`: `_fetch_single_invoice`
catches every exception and converts it into a failed result, so the
`isinstance` fallback branch of the source is unreachable. -/
def analyzeBatchResults (rs : List InvoiceFetchResult) : BatchStats :=
  rs.foldl (fun st r =>
    if r.success then { st with successes := st.successes + 1 }
    else
      { st with failures := st.failures + 1,
                rate_limit_errors := st.rate_limit_errors +
                  (if isRateLimitError r.error then 1 else 0) })
    {}

/-- The 80%-success test `batch_stats.successes >= len(batch_results) * 0.8`
of `_update_batch_config`.  The float comparison is modelled exactly by the
integer comparison `4 * total ≤ 5 * successes`: both operands are integers,
and for every integer pair in the reachable range the rounded float product
`len * 0.8` compares to an integer exactly as the rational `4/5 * len` does. -/
def successThresholdMet (successes total : Nat) : Bool :=
  decide (4 * total ≤ 5 * successes)

/-- `GdtInvoiceImportWorkflow._update_batch_config`: shrink on any
rate-limit error, grow on a clean ≥80%-success batch, and adjust the delay. -/
def updateBatchConfig (c : BatchConfig) (rs : List InvoiceFetchResult) : BatchConfig :=
  let st := analyzeBatchResults rs
  let c1 :=
    if 0 < st.rate_limit_errors then c.reduceBatchSize
    else if successThresholdMet st.successes rs.length then c.increaseBatchSize
    else c
  if 0 < st.rate_limit_errors then c1.increaseDelay st.rate_limit_errors
  else c1.resetDelay

/-- The loop of `GdtInvoiceImportWorkflow._process_invoice_batches`:
`for i in range(0, len(self.invoices), config.batch_size)` with
`batch = self.invoices[i:i + config.batch_size]`.  The `range` object is
created once, so its stride `step` is frozen at the initial
`config.batch_size`, while the slice inside the loop uses the current,
adapted `config.batch_size`.  `fetch` gives the `InvoiceFetchResult` that
`_fetch_single_invoice` produces for an invoice (it never raises).  The
recursion is fuelled; the caller supplies fuel covering every iteration of
the source loop for any positive stride. -/
def phase1Go (fetch : GdtInvoice → InvoiceFetchResult) (invoices : List GdtInvoice)
    (step : Nat) :
    Nat → Nat → BatchConfig → List InvoiceFetchResult →
      List InvoiceFetchResult × BatchConfig
  | 0, _, c, acc => (acc, c)
  | fuel + 1, i, c, acc =>
    if i < invoices.length then
      let batch := (invoices.drop i).take c.batch_size
      let batchResults := batch.map fetch
      let c1 := updateBatchConfig c batchResults
      phase1Go fetch invoices step fuel (i + step) c1 (acc ++ batchResults)
    else (acc, c)

/-- `GdtInvoiceImportWorkflow._process_invoice_batches` (Phase 1 of the
fetch): the list of fetch results accumulated by the batch loop. -/
def processInvoiceBatches (mode : String) (fetch : GdtInvoice → InvoiceFetchResult)
    (invoices : List GdtInvoice) : List InvoiceFetchResult :=
  let config := mkBatchConfig mode
  (phase1Go fetch invoices config.batch_size (invoices.length + 1) 0 config []).1

/-- `RetryConfig.batch_size` (the retry pass uses fixed batches of 3). -/
def retryBatchSize : Nat := 3

/-- Counters and result slots mutated by the retry pass
(`self.results`, `self.completed_invoices`, `self.failed_invoices`). -/
structure RetryState where
  results : List InvoiceFetchResult
  completed : Int
  failed : Int
deriving DecidableEq

/-- `GdtInvoiceImportWorkflow._get_failed_invoices`: the invoices whose slot
in `self.results` holds an unsuccessful result.  The source iterates result
indices and reads `self.invoices[i]`, assuming one result per invoice; the
`Option` lookup restricts the model to the in-range slots (on a longer
result list the source raises `IndexError` instead). -/
def getFailedInvoices (invoices : List GdtInvoice)
    (results : List InvoiceFetchResult) : List GdtInvoice :=
  results.enum.filterMap (fun ir =>
    if ir.2.success then none else invoices.get? ir.1)

/-- The per-result update of `_process_retry_batch`: `original_index =
self.invoices.index(retry_batch[j])` (index of the first occurrence equal to
the invoice), and on a successful retry the slot is overwritten and one unit
moves from `failed` to `completed`. -/
def applyRetryResult (invoices : List GdtInvoice) (st : RetryState)
    (p : GdtInvoice × InvoiceFetchResult) : RetryState :=
  let originalIndex := invoices.indexOf p.1
  if p.2.success then
    { results := st.results.set originalIndex p.2,
      completed := st.completed + 1,
      failed := st.failed - 1 }
  else st

/-- `_process_retry_batch` for one retry batch: all invoices of the batch
are fetched concurrently (`asyncio.gather` keeps batch order) and the
update loop folds over the pairs in order. -/
def processRetryBatch (invoices : List GdtInvoice)
    (fetch : GdtInvoice → InvoiceFetchResult) (st : RetryState)
    (batch : List GdtInvoice) : RetryState :=
  (batch.map (fun inv => (inv, fetch inv))).foldl (applyRetryResult invoices) st

/-- The batch loop of `_retry_failed_invoices`:
`for i in range(0, len(failed_invoices), retry_config.batch_size)` with
`retry_batch = failed_invoices[i:i + retry_config.batch_size]`.  The stride
is the fixed `retryBatchSize`; recursion is fuelled by the caller. -/
def retryLoopGo (invoices : List GdtInvoice)
    (fetch : GdtInvoice → InvoiceFetchResult) (failedInvs : List GdtInvoice) :
    Nat → Nat → RetryState → RetryState
  | 0, _, st => st
  | fuel + 1, i, st =>
    if i < failedInvs.length then
      retryLoopGo invoices fetch failedInvs fuel (i + retryBatchSize)
        (processRetryBatch invoices fetch st ((failedInvs.drop i).take retryBatchSize))
    else st

/-- `GdtInvoiceImportWorkflow._retry_failed_invoices` (Phase 2): collect the
failed invoices once, then run the fixed-size retry batches. -/
def retryFailedInvoices (invoices : List GdtInvoice)
    (fetch : GdtInvoice → InvoiceFetchResult) (st : RetryState) : RetryState :=
  let failedInvs := getFailedInvoices invoices st.results
  retryLoopGo invoices fetch failedInvs (failedInvs.length + 1) 0 st

/-- Round a rational to the nearest integer, ties to even (Python `round`). -/
def roundHalfEven (q : ℚ) : ℤ :=
  let f := ⌊q⌋
  if q - f < 1 / 2 then f
  else if (1 : ℚ) / 2 < q - f then f + 1
  else if f % 2 = 0 then f else f + 1

/-- Python `round(x, 2)`. -/
def round2 (q : ℚ) : ℚ :=
  ((roundHalfEven (q * 100) : ℚ)) / 100

/-- The dict returned by the `get_progress` query of
`GdtInvoiceImportWorkflow`. -/
structure ProgressView where
  total_invoices : Nat
  completed_invoices : Nat
  failed_invoices : Nat
  percentage : ℚ
deriving DecidableEq

/-- `GdtInvoiceImportWorkflow.get_progress`: the percentage is
`round(completed / total * 100, 2)` when `total_invoices > 0` and `0.0`
otherwise.  The model is a total function: the query never raises. -/
def getProgress (total completed failed : Nat) : ProgressView :=
  { total_invoices := total,
    completed_invoices := completed,
    failed_invoices := failed,
    percentage :=
      if 0 < total then round2 ((completed : ℚ) / (total : ℚ) * 100) else 0 }

/-- The `success_rate` computed in `GdtInvoiceImportWorkflow.run` for the
returned summary: `round(completed / total * 100, 2)` when
`total_invoices > 0`, else `0.0`. -/
def runSuccessRate (total completed : Nat) : ℚ :=
  if 0 < total then round2 ((completed : ℚ) / (total : ℚ) * 100) else 0

/-- The value the `emit_on_complete` wrapper of
`temporal_app/activities/hooks.py` returns to the workflow, as a function of
the underlying activity result, the outcome of the webhook block (building
the payload and envelope, signing, POSTing — all inside the first
`try/except`, whose exception is only logged) and the outcome of
`compact_from_result` (second `try/except`; on exception the raw result is
returned).  Exceptions are modelled as `Except.error`; the function is total,
so no exception from either block propagates to the caller. -/
def emitOnCompleteReturn {α : Type} (result : α)
    (emitOutcome : Except String Unit) (compactOutcome : Except String α) : α :=
  match emitOutcome with
  | .ok _ =>
    match compactOutcome with
    | .ok c => c
    | .error _ => result
  | .error _ =>
    match compactOutcome with
    | .ok c => c
    | .error _ => result

/-- `app/main.py _generate_workflow_id` for
`task_type == TaskType.GDT_INVOICE_IMPORT`: the id string interpolates the
task type value, `params["company_id"]`, the two date-range bounds, and
`int(time.time() * 1000)` (the current wall-clock milliseconds, passed here
as an explicit argument). -/
def generateWorkflowId (taskTypeValue companyId dateRangeStart dateRangeEnd : String)
    (timestampMs : Nat) : String :=
  taskTypeValue ++ "-" ++ companyId ++ "-" ++ dateRangeStart ++ "-" ++
    dateRangeEnd ++ "-" ++ toString timestampMs

/-- A value of Python type `datetime.date` (`PyDate.IsValid` carries the
constructor's range checks). -/
structure PyDate where
  year : Nat
  month : Nat
  day : Nat
deriving DecidableEq

/-- Python `calendar.isleap`. -/
def isLeapYear (y : Nat) : Bool :=
  (y % 4 == 0) && (y % 100 != 0 || y % 400 == 0)

/-- `calendar.monthrange(year, month)[1]`: the number of days in the month. -/
def daysInMonth (y m : Nat) : Nat :=
  if m = 2 then (if isLeapYear y then 29 else 28)
  else if m = 4 ∨ m = 6 ∨ m = 9 ∨ m = 11 then 30
  else 31

/-- The range checks of the `datetime.date` constructor. -/
def PyDate.IsValid (d : PyDate) : Prop :=
  1 ≤ d.year ∧ 1 ≤ d.month ∧ d.month ≤ 12 ∧ 1 ≤ d.day ∧
    d.day ≤ daysInMonth d.year d.month

instance (d : PyDate) : Decidable d.IsValid := by
  unfold PyDate.IsValid; infer_instance

/-- Python `date` comparison `a <= b` (chronological, i.e. lexicographic on
year, month, day). -/
def PyDate.le (a b : PyDate) : Prop :=
  a.year < b.year ∨ (a.year = b.year ∧
    (a.month < b.month ∨ (a.month = b.month ∧ a.day ≤ b.day)))

instance (a b : PyDate) : Decidable (PyDate.le a b) := by
  unfold PyDate.le; infer_instance

/-- Python `date` comparison `a < b`. -/
def PyDate.lt (a b : PyDate) : Prop :=
  a.year < b.year ∨ (a.year = b.year ∧
    (a.month < b.month ∨ (a.month = b.month ∧ a.day < b.day)))

instance (a b : PyDate) : Decidable (PyDate.lt a b) := by
  unfold PyDate.lt; infer_instance

/-- Python `min` on two dates (returns the first argument on ties). -/
def minDate (a b : PyDate) : PyDate :=
  if PyDate.lt b a then b else a

/-- `date(year, month, last_day_of_month)` for the month of `d`. -/
def lastOfMonth (d : PyDate) : PyDate :=
  ⟨d.year, d.month, daysInMonth d.year d.month⟩

/-- The advance step of `_split_date_range_by_month`: `date(year + 1, 1, 1)`
after December, otherwise `date(year, month + 1, 1)`. -/
def firstOfNextMonth (d : PyDate) : PyDate :=
  if d.month = 12 then ⟨d.year + 1, 1, 1⟩ else ⟨d.year, d.month + 1, 1⟩

/-- Month counter used only to size the fuel of the chunking loop. -/
def monthIdx (d : PyDate) : Nat :=
  12 * d.year + d.month

/-- The `while current_start <= end_date` loop of
`_split_date_range_by_month`: emit `(current_start, min(last-of-month,
end_date))`, stop once the chunk end hits `end_date`, else restart from the
first day of the next month.  The loop advances one calendar month per
iteration; recursion is fuelled and `splitDateRangeByMonth` supplies fuel
covering the whole range. -/
def splitGo (e : PyDate) : Nat → PyDate → List (PyDate × PyDate)
  | 0, _ => []
  | fuel + 1, cur =>
    if PyDate.le cur e then
      let cend := minDate (lastOfMonth cur) e
      if cend = e then [(cur, cend)]
      else (cur, cend) :: splitGo e fuel (firstOfNextMonth cur)
    else []

/-- `direct_gdt_integration.py _split_date_range_by_month`: return `[]` when
`start_date > end_date`, otherwise run the monthly chunking loop. -/
def splitDateRangeByMonth (s e : PyDate) : List (PyDate × PyDate) :=
  if PyDate.lt e s then []
  else splitGo e (monthIdx e + 1 - monthIdx s) s

/-- The day after `d` (`date + timedelta(days=1)`); used only to state
gap/overlap-freeness of consecutive chunks. -/
def nextDay (d : PyDate) : PyDate :=
  if d.day < daysInMonth d.year d.month then ⟨d.year, d.month, d.day + 1⟩
  else firstOfNextMonth d

/-- One page of the GDT list endpoint response as read by
`_make_api_request` in `temporal_app/activities/gdt_discovery.py`: the
`datas` items, the continuation `state` token, and the server-reported
`total` (present in the response shape; the pagination loop never reads
it).  Items are uninterpreted (`α`). -/
structure GdtPage (α : Type) where
  datas : List α
  state : Option String := none
  total : Nat := 0

/-- `page_size = 50` in `_make_api_request`. -/
def gdtPageSize : Nat := 50

/-- The pagination loop of `_make_api_request` for one `(flow, ttxly)`
pair.  `server n` is the response to the `(n+1)`-st GET request of the loop
(the state token is only round-tripped, so responses are indexed by request
number).  `req` counts requests already issued, `page` is the source's page
counter.  Per source order: an empty `datas` breaks without appending; after
appending, a missing token or a short page breaks; then the counter is
incremented and `page >= 100` breaks.  Returns the aggregated items and the
number of GET requests issued.  The 100-page ceiling bounds the loop; the
`fuel` argument (100 at top level) only reifies that bound. -/
def paginateGo {α : Type} (server : Nat → GdtPage α) :
    Nat → Nat → Nat → List α → List α × Nat
  | 0, req, _, acc => (acc, req)
  | fuel + 1, req, page, acc =>
    let p := server req
    if p.datas.isEmpty then (acc, req + 1)
    else
      let acc1 := acc ++ p.datas
      if p.state.isNone || decide (p.datas.length < gdtPageSize) then (acc1, req + 1)
      else if 100 ≤ page + 1 then (acc1, req + 1)
      else paginateGo server fuel (req + 1) (page + 1) acc1

/-- Run the pagination loop of `_make_api_request` from its initial state. -/
def paginate {α : Type} (server : Nat → GdtPage α) : List α × Nat :=
  paginateGo server 100 0 0 []

/-- Outcome of `fetch_flow_invoices` for one flow as observed through
`asyncio.gather(..., return_exceptions=True)` in `discover_invoices`:
either the flow's raw items (possibly empty) or a captured raised
exception. -/
inductive FlowOutcome (α : Type) where
  | items : List α → FlowOutcome α
  | exc : FlowOutcome α

/-- `DiscoveryResult` (pydantic model in `temporal_app/models.py`).  Note
the model declares no `failed_flows` field: the `failed_flows=...` keyword
passed at the construction site in `discover_invoices` refers to an
undeclared field and is discarded by pydantic's default extra-field
handling. -/
structure DiscoveryResult (α : Type) where
  company_id : String
  date_range_start : String
  date_range_end : String
  flows : List String
  invoice_count : Nat
  invoices : List GdtInvoice
  raw_invoices : Option (List α) := none

/-- The result-combination and escalation logic at the end of
`discover_invoices` (everything after the per-flow fetches): concatenate the
raw items of successful flows, record the flows whose gather slot holds an
exception, raise `GDTDiscoveryError` exactly when no raw item was found and
every flow failed (and at least one flow exists), and otherwise build the
`DiscoveryResult`.  The per-item normalization loop converts each raw item
inside `try/except` and skips failures; it is modelled by the
`parse : α → Option GdtInvoice` argument (the items are wire-format JSON
records, uninterpreted here). -/
def combineDiscovery {α : Type} (parse : α → Option GdtInvoice)
    (companyId dateStart dateEnd : String)
    (flows : List String) (outcomes : List (FlowOutcome α)) :
    Except String (DiscoveryResult α) :=
  let allRawItems := outcomes.foldl (fun acc o =>
    match o with
    | .items raw => acc ++ raw
    | .exc => acc) []
  let failedFlows := (flows.zip outcomes).filterMap (fun p =>
    match p.2 with
    | .exc => some p.1
    | .items _ => none)
  if allRawItems.isEmpty ∧ failedFlows.length = flows.length ∧ failedFlows.length ≠ 0 then
    .error ("All " ++ toString flows.length ++ " flows failed during discovery")
  else
    let invoices := allRawItems.filterMap parse
    .ok { company_id := companyId, date_range_start := dateStart,
          date_range_end := dateEnd, flows := flows,
          invoice_count := invoices.length, invoices := invoices,
          raw_invoices := some allRawItems }

/-- A concrete invoice fixture (shape of the records produced by
discovery normalization). -/
def mkTestInvoice (n : Nat) : GdtInvoice :=
  { invoice_id := toString n, invoice_number := toString n,
    invoice_date := "2025-01-01", invoice_type := "ban_ra_dien_tu",
    amount := 0, tax_amount := 0, supplier_name := "s",
    supplier_tax_code := "t", metadata := [] }

/-- A fetch oracle where every invoice fetch succeeds. -/
def fetchAlwaysOk (inv : GdtInvoice) : InvoiceFetchResult :=
  { invoice_id := inv.invoice_id, success := true }

/-- Seventeen concrete invoices. -/
def invs17 : List GdtInvoice :=
  (List.range 17).map mkTestInvoice

/-- A server whose first response already carries all `total` announced
items (a full page) yet still returns a continuation token; its second
response is empty with no token. -/
def pageServerTotalFirst : Nat → GdtPage Nat := fun n =>
  if n = 0 then { datas := List.range 50, state := some "tok", total := 50 }
  else { datas := [], state := none, total := 50 }

/-- A server returning one full page with a token, then a short page with
no token (the `k = 1` instance of the pagination scenario). -/
def shortPageServer : Nat → GdtPage Nat := fun n =>
  if n = 0 then { datas := List.range 50, state := some "tok", total := 53 }
  else { datas := [50, 51, 52], state := none, total := 53 }

/-- A concrete failed phase-1 fetch result. -/
def failedFetchResult : InvoiceFetchResult :=
  { invoice_id := "0", success := false,
    error := some "HTTP 429 Too Many Requests" }

/-- A concrete successful fetch result for invoice id `"0"`. -/
def okFetchResult : InvoiceFetchResult :=
  { invoice_id := "0", success := true }

/-- A retry oracle where every retry fetch succeeds with `okFetchResult`. -/
def retryOkOracle : GdtInvoice → InvoiceFetchResult := fun _ => okFetchResult

/-- A retry oracle for the two-invoice witness scenario: invoice `"1"`
succeeds on retry. -/
def retryMixedOracle : GdtInvoice → InvoiceFetchResult := fun inv =>
  { invoice_id := inv.invoice_id, success := true }

/-- A concrete failed phase-1 result for invoice id `"1"`. -/
def failedFetchResult1 : InvoiceFetchResult :=
  { invoice_id := "1", success := false, error := some "rate limit exceeded" }

/-- C7.  The source's `_generate_workflow_id` interpolates the current
wall-clock milliseconds into the workflow id, so two starts of the same
`(task_type, company_id, date_range)` at different milliseconds get
different workflow ids and Temporal starts two distinct runs; the id is not
a deterministic key for the dedup window the way the function's own
docstring ("deterministic workflow ID for idempotency") and the
`start_task` comments describe. -/
theorem workflow_id_embeds_timestamp :
    generateWorkflowId "gdt_invoice_import" "0312345678" "2025-01-01"
        "2025-01-31" 1700000000000 ≠
      generateWorkflowId "gdt_invoice_import" "0312345678" "2025-01-01"
        "2025-01-31" 1700000000001 := by
  decide

/-- C8.  The `emit_on_complete` wrapper is best-effort and fire-and-forget:
whatever the underlying result and whatever `compact_from_result` does, a
raised exception in the webhook build/sign/POST block leaves the value
returned to the workflow exactly as it would have been had the webhook
succeeded, and when `compact_from_result` also raises the raw activity
result is returned unchanged; being a total function into `α`, the wrapper
never propagates a webhook exception to the caller. -/
theorem emit_on_complete_best_effort {α : Type} (result : α) (e : String)
    (compactOutcome : Except String α) :
    emitOnCompleteReturn result (.error e) compactOutcome =
      emitOnCompleteReturn result (.ok ()) compactOutcome ∧
    (∀ e2 : String, emitOnCompleteReturn result (.error e) (.error e2) = result) := by
  refine ⟨?_, fun e2 => rfl⟩
  cases compactOutcome <;> rfl

/-- Any sequence of `reduce_batch_size` / `increase_batch_size` calls keeps
`batch_size = 1` once `batch_size`, `min_batch_size` and `max_batch_size`
are all pinned to 1. -/
theorem applyBatchOps_pinned (ops : List BatchOp) :
    ∀ c : BatchConfig, c.batch_size = 1 → c.min_batch_size = 1 →
      c.max_batch_size = 1 → (applyBatchOps c ops).batch_size = 1 := by
  induction ops with
  | nil => intro c h1 _ _; simpa [applyBatchOps] using h1
  | cons op ops ih =>
    intro c h1 h2 h3
    have hstep :
        applyBatchOps c (op :: ops) =
          applyBatchOps
            (match op with
             | .reduce => c.reduceBatchSize
             | .increase => c.increaseBatchSize) ops := rfl
    rw [hstep]
    cases op with
    | reduce =>
      exact ih _ (by simp [BatchConfig.reduceBatchSize, h1, h2]) h2 h3
    | increase =>
      exact ih _ (by simp [BatchConfig.increaseBatchSize, h1, h3]) h2 h3

/-- C9.  Constructing a `BatchConfig` with `processing_mode = "sequential"`
(the workflow's default mode) forces `batch_size`, `min_batch_size` and
`max_batch_size` to 1 and `delay` and `base_delay` to 2.0, whatever the
other constructor arguments were; and every subsequent sequence of
`reduce_batch_size` / `increase_batch_size` calls leaves `batch_size = 1`. -/
theorem sequential_mode_pins_batch_size (c0 : BatchConfig) (ops : List BatchOp) :
    let c := BatchConfig.postInit { c0 with processing_mode := "sequential" }
    c.batch_size = 1 ∧ c.min_batch_size = 1 ∧ c.max_batch_size = 1 ∧
      c.delay = 2 ∧ c.base_delay = 2 ∧ (applyBatchOps c ops).batch_size = 1 := by
  intro c
  have h1 : c.batch_size = 1 := by simp [c, BatchConfig.postInit]
  have h2 : c.min_batch_size = 1 := by simp [c, BatchConfig.postInit]
  have h3 : c.max_batch_size = 1 := by simp [c, BatchConfig.postInit]
  have h4 : c.delay = 2 := by simp [c, BatchConfig.postInit]
  have h5 : c.base_delay = 2 := by simp [c, BatchConfig.postInit]
  exact ⟨h1, h2, h3, h4, h5, applyBatchOps_pinned ops c h1 h2 h3⟩

/-- C10.  Neither the progress query nor the run summary divides by zero:
with `total_invoices = 0` the query reports `percentage = 0.0` and the run
result reports `success_rate = 0.0` (and both are total functions, so the
query returns a value in every state). -/
theorem progress_zero_total_safe (completed failed : Nat) :
    (getProgress 0 completed failed).percentage = 0 ∧
      runSuccessRate 0 completed = 0 := by
  constructor <;> simp [getProgress, runSuccessRate]

/-- Projecting `batch_size` through `_update_batch_config`: the delay
adjustments do not touch the batch size, which is determined by the
shrink/grow branch alone. -/
theorem updateBatchConfig_batch_size (c : BatchConfig) (rs : List InvoiceFetchResult) :
    (updateBatchConfig c rs).batch_size =
      (if 0 < (analyzeBatchResults rs).rate_limit_errors then c.reduceBatchSize
       else if successThresholdMet (analyzeBatchResults rs).successes rs.length then
        c.increaseBatchSize
       else c).batch_size := by
  unfold updateBatchConfig
  by_cases h : 0 < (analyzeBatchResults rs).rate_limit_errors
  · simp [h, BatchConfig.increaseDelay]
  · simp [h, BatchConfig.resetDelay]

/-- C2.  Adaptation monotonicity of `_update_batch_config`: a batch outcome
containing at least one rate-limit (429) failure never increases
`batch_size` (and keeps it at or above `min_batch_size`); a batch outcome
with zero rate-limit failures and at least 80% successes never decreases
`batch_size` (and keeps it at or below `max_batch_size`).  The hypotheses
`min_batch_size ≤ batch_size ≤ max_batch_size` hold for every config the
workflow constructs and are preserved by both adaptation steps. -/
theorem batch_adaptation_monotonic (c : BatchConfig) (rs : List InvoiceFetchResult)
    (hmin : c.min_batch_size ≤ c.batch_size) (hmax : c.batch_size ≤ c.max_batch_size) :
    (0 < (analyzeBatchResults rs).rate_limit_errors →
      (updateBatchConfig c rs).batch_size ≤ c.batch_size ∧
      c.min_batch_size ≤ (updateBatchConfig c rs).batch_size) ∧
    ((analyzeBatchResults rs).rate_limit_errors = 0 →
      successThresholdMet (analyzeBatchResults rs).successes rs.length = true →
      c.batch_size ≤ (updateBatchConfig c rs).batch_size ∧
      (updateBatchConfig c rs).batch_size ≤ c.max_batch_size) := by
  constructor
  · intro h
    rw [updateBatchConfig_batch_size]
    simp only [if_pos h, BatchConfig.reduceBatchSize]
    constructor <;> simp [hmin]
  · intro h0 h1
    rw [updateBatchConfig_batch_size]
    simp only [h0, Nat.lt_irrefl, if_false, h1, if_true, BatchConfig.increaseBatchSize]
    constructor <;> simp [hmax]

/-- Witness for `batch_adaptation_monotonic` at the workflow's parallel-mode
initial config and a one-element batch that failed with a 429. -/
theorem batch_adaptation_monotonic_witness :
    0 < (analyzeBatchResults [failedFetchResult]).rate_limit_errors ∧
    (updateBatchConfig (mkBatchConfig "parallel") [failedFetchResult]).batch_size ≤
      (mkBatchConfig "parallel").batch_size ∧
    (mkBatchConfig "parallel").min_batch_size ≤
      (updateBatchConfig (mkBatchConfig "parallel") [failedFetchResult]).batch_size :=
  ⟨by decide,
   (batch_adaptation_monotonic (mkBatchConfig "parallel") [failedFetchResult]
      (by decide) (by decide)).1 (by decide)⟩

/-- C1.  In parallel mode the Phase-1 batch loop does not produce one
`FetchResult` per invoice: `range(0, len(invoices), config.batch_size)`
freezes its stride at the initial batch size (8) when the `range` object is
created, while the slice `invoices[i:i + config.batch_size]` uses the
adapted size.  With 17 invoices and every fetch succeeding, the batch size
grows 8 → 9 → 10, the slices taken at offsets 0, 8, 16 are
`invoices[0:8]`, `invoices[8:17]`, `invoices[16:17]`, and the invoice at
index 16 is fetched twice: the loop yields 18 results for 17 invoices
(shrinking below the stride likewise skips invoices).  The retry phase then
indexes `self.invoices[i]` for every result index, which raises
`IndexError` on the 18-element result list. -/
theorem phase1_duplicates_invoice :
    invs17.length = 17 ∧
    (processInvoiceBatches "parallel" fetchAlwaysOk invs17).length = 18 ∧
    ((processInvoiceBatches "parallel" fetchAlwaysOk invs17).filter
        (fun r => r.invoice_id == "16")).length = 2 := by
  decide

/-- C4 counterexample.  `_make_api_request` never reads the
server-reported `total` of a response.  For this server the first response
is a full page whose `datas` already cover the announced `total`, with a
continuation token present, so by the claim ("… OR the running total
reaches the server-reported total — whichever comes first") pagination
should stop after exactly one request; the loop issues a second request. -/
theorem pagination_ignores_server_total :
    (pageServerTotalFirst 0).datas.length = (pageServerTotalFirst 0).total ∧
    (pageServerTotalFirst 0).state.isSome = true ∧
    (pageServerTotalFirst 0).datas.length = gdtPageSize ∧
    (paginate pageServerTotalFirst).2 = 2 := by
  decide

/-- C5 counterexample.  `_process_retry_batch` locates the slot to overwrite
with `self.invoices.index(retry_batch[j])`, the index of the first invoice
comparing equal.  With two equal invoices both failing Phase 1 and both
succeeding on retry, both updates land on slot 0: the invoice at slot 1
failed in Phase 1 and its retry fetch succeeded, yet the final list still
holds the failed result at slot 1 (and the counters move by two, both
charged to slot 0). -/
theorem retry_promotion_duplicate_invoice :
    [mkTestInvoice 0, mkTestInvoice 0].get? 1 = some (mkTestInvoice 0) ∧
    [failedFetchResult, failedFetchResult].get? 1 = some failedFetchResult ∧
    failedFetchResult.success = false ∧
    (retryOkOracle (mkTestInvoice 0)).success = true ∧
    (retryFailedInvoices [mkTestInvoice 0, mkTestInvoice 0] retryOkOracle
        ⟨[failedFetchResult, failedFetchResult], 0, 2⟩).results.get? 1 =
      some failedFetchResult := by
  decide

/-- C6.  `discover_invoices` on a mixed chunk (one flow succeeds with an
invoice, one flow raises) returns instead of raising — but the value it
returns carries no record of the failed flows: the `DiscoveryResult` model
declares no `failed_flows` field, so the `failed_flows=...` keyword passed
at the construction site is discarded, and the returned result is
indistinguishable from that of a run in which the second flow succeeded
with zero invoices. -/
theorem discovery_failed_flows_dropped {α : Type} (parse : α → Option GdtInvoice) (x : α) :
    (combineDiscovery parse "company-1" "2025-01-01" "2025-01-31"
        ["ban_ra_dien_tu", "mua_vao_dien_tu"]
        [FlowOutcome.items [x], FlowOutcome.exc]).isOk = true ∧
    combineDiscovery parse "company-1" "2025-01-01" "2025-01-31"
        ["ban_ra_dien_tu", "mua_vao_dien_tu"]
        [FlowOutcome.items [x], FlowOutcome.exc] =
      combineDiscovery parse "company-1" "2025-01-01" "2025-01-31"
        ["ban_ra_dien_tu", "mua_vao_dien_tu"]
        [FlowOutcome.items [x], FlowOutcome.items []] := by
  constructor <;> rfl

/-- Generalized invariant for the pagination loop of `_make_api_request`
against a server answering `k` full pages (each with a token) and then a
short tokenless page: from the state reached after `j` full pages (requests
issued = page counter = `j`, fuel `100 - j`), the loop returns the
accumulator extended by pages `j..k` and a request count of `k + 1`. -/
theorem paginateGo_spec {α : Type} (server : Nat → GdtPage α) (k : Nat)
    (hk : k < 100)
    (hfull : ∀ i, i < k →
      (server i).datas.length = gdtPageSize ∧ (server i).state.isSome = true)
    (hshort : (server k).datas.length < gdtPageSize)
    (htok : (server k).state = none) :
    ∀ j acc, j ≤ k →
      paginateGo server (100 - j) j j acc =
        (acc ++ (List.range' j (k + 1 - j)).flatMap (fun i => (server i).datas),
         k + 1) := by
  have main : ∀ d j acc, j ≤ k → k - j = d →
      paginateGo server (100 - j) j j acc =
        (acc ++ (List.range' j (k + 1 - j)).flatMap (fun i => (server i).datas),
         k + 1) := by
    intro d
    induction d with
    | zero =>
      intro j acc hj hd
      have hjk : j = k := by omega
      subst hjk
      have h100 : 100 - j = (99 - j) + 1 := by omega
      have h1 : j + 1 - j = 1 := by omega
      rw [h100, h1]
      simp only [paginateGo]
      by_cases hemp : (server j).datas.isEmpty
      · have hnil : (server j).datas = [] := List.isEmpty_iff.mp hemp
        simp [hemp, List.range'_succ, hnil]
      · simp [hemp, htok, List.range'_succ]
    | succ d ih =>
      intro j acc hj hd
      have hjk : j < k := by omega
      obtain ⟨hlen, hsome⟩ := hfull j hjk
      obtain ⟨tok, hstate⟩ := Option.isSome_iff_exists.mp hsome
      have h100 : 100 - j = (99 - j) + 1 := by omega
      rw [h100]
      simp only [paginateGo]
      have hemp : (server j).datas.isEmpty = false := by
        rcases hnil : (server j).datas with _ | _
        · rw [hnil] at hlen; simp [gdtPageSize] at hlen
        · simp
      have hnotshort : ¬ (server j).datas.length < gdtPageSize := by omega
      have hceil : ¬ (100 ≤ j + 1) := by omega
      have hrec : 99 - j = 100 - (j + 1) := by omega
      simp only [hemp, Bool.false_eq_true, if_false, hstate, Option.isNone_some,
        hnotshort, decide_False, Bool.or_self, hceil, if_true, hrec]
      rw [ih (j + 1) (acc ++ (server j).datas) (by omega) (by omega)]
      have hsplit : k + 1 - j = (k + 1 - (j + 1)) + 1 := by omega
      rw [hsplit, List.range'_succ, List.flatMap_cons, List.append_assoc]
  intro j acc hj
  exact main (k - j) j acc hj rfl

/-- C4 (amended).  For one `(flow, status)` pair, against a server that
returns `k` full pages (each carrying a continuation token) followed by a
short page with no token, the pagination loop of `_make_api_request` issues
exactly `k + 1` GET requests and returns the concatenation of the pages'
items in order — every returned item exactly once, no duplicates, no
missing records.  The stop conditions actually implemented are: empty page,
missing token, short page, and the hard 100-page ceiling (hence `k < 100`);
the server-reported total is not consulted
(see `pagination_ignores_server_total`). -/
theorem pagination_requests_exact {α : Type} (server : Nat → GdtPage α) (k : Nat)
    (hk : k < 100)
    (hfull : ∀ i, i < k →
      (server i).datas.length = gdtPageSize ∧ (server i).state.isSome = true)
    (hshort : (server k).datas.length < gdtPageSize)
    (htok : (server k).state = none) :
    paginate server =
      ((List.range (k + 1)).flatMap (fun i => (server i).datas), k + 1) := by
  have h := paginateGo_spec server k hk hfull hshort htok 0 [] (Nat.zero_le k)
  simpa [paginate, List.range_eq_range'] using h

/-- Witness for `pagination_requests_exact` at `k = 1`: one full page with a
token, then a 3-item page with no token; two requests, 53 items in order. -/
theorem pagination_requests_exact_witness :
    (1 < 100) ∧
    (∀ i, i < 1 →
      (shortPageServer i).datas.length = gdtPageSize ∧
      (shortPageServer i).state.isSome = true) ∧
    (shortPageServer 1).datas.length < gdtPageSize ∧
    (shortPageServer 1).state = none ∧
    paginate shortPageServer =
      ((List.range 2).flatMap (fun i => (shortPageServer i).datas), 2) :=
  ⟨by decide, by decide, by decide, by decide,
   pagination_requests_exact shortPageServer 1 (by decide) (by decide)
     (by decide) (by decide)⟩

/-- Every month has at least one day. -/
theorem daysInMonth_pos (y m : Nat) : 1 ≤ daysInMonth y m := by
  unfold daysInMonth
  split
  · split <;> omega
  · split <;> omega

/-- Totality of the date order: if `b` is not earlier than `a` and they
differ, then `a` is earlier than `b`. -/
theorem pydate_lt_of_not_lt_of_ne {a b : PyDate} (h1 : ¬ PyDate.lt b a)
    (h2 : a ≠ b) : PyDate.lt a b := by
  obtain ⟨y1, m1, d1⟩ := a
  obtain ⟨y2, m2, d2⟩ := b
  simp only [PyDate.lt, PyDate.mk.injEq, ne_eq] at *
  omega

/-- Asymmetry of the date order. -/
theorem pydate_not_lt_of_le {a b : PyDate} (h : PyDate.le a b) :
    ¬ PyDate.lt b a := by
  obtain ⟨y1, m1, d1⟩ := a
  obtain ⟨y2, m2, d2⟩ := b
  simp only [PyDate.le, PyDate.lt] at *
  omega

/-- The month counter respects the date order (for in-range months). -/
theorem monthIdx_le_of_le {a b : PyDate} (ha : a.month ≤ 12) (hb : 1 ≤ b.month)
    (h : PyDate.le a b) : monthIdx a ≤ monthIdx b := by
  obtain ⟨y1, m1, d1⟩ := a
  obtain ⟨y2, m2, d2⟩ := b
  simp only [PyDate.le, monthIdx] at *
  omega

/-- The last day of the month of a valid date is a valid date. -/
theorem lastOfMonth_valid {d : PyDate} (hd : d.IsValid) :
    (lastOfMonth d).IsValid := by
  obtain ⟨y, m, dd⟩ := d
  have := daysInMonth_pos y m
  simp only [PyDate.IsValid, lastOfMonth] at *
  omega

/-- A valid date is at or before the last day of its month. -/
theorem le_lastOfMonth {d : PyDate} (hd : d.IsValid) :
    PyDate.le d (lastOfMonth d) := by
  obtain ⟨y, m, dd⟩ := d
  simp only [PyDate.IsValid, PyDate.le, lastOfMonth, lt_self_iff_false,
    true_and, false_or] at *
  omega

/-- The first day of the next month of a valid date is a valid date. -/
theorem firstOfNextMonth_valid {d : PyDate} (hd : d.IsValid) :
    (firstOfNextMonth d).IsValid := by
  have h1 := daysInMonth_pos (d.year + 1) 1
  have h2 := daysInMonth_pos d.year (d.month + 1)
  obtain ⟨y, m, dd⟩ := d
  simp only [PyDate.IsValid, firstOfNextMonth] at *
  split <;> (simp only [PyDate.IsValid]; omega)

/-- Advancing to the next month increments the month counter. -/
theorem monthIdx_firstOfNextMonth {d : PyDate} (hd : d.month ≤ 12) :
    monthIdx (firstOfNextMonth d) = monthIdx d + 1 := by
  obtain ⟨y, m, dd⟩ := d
  simp only [monthIdx, firstOfNextMonth] at *
  split <;> (simp only [monthIdx]; omega)

/-- The day after the last day of a month is the first day of the next
month. -/
theorem nextDay_lastOfMonth (d : PyDate) :
    nextDay (lastOfMonth d) = firstOfNextMonth d := by
  obtain ⟨y, m, dd⟩ := d
  simp only [nextDay, lastOfMonth, firstOfNextMonth, Nat.lt_irrefl, if_false]

/-- A date lying between a date and the last day of that date's month is in
the same month. -/
theorem same_month_of_between {cur e : PyDate} (h1 : PyDate.le cur e)
    (h2 : PyDate.lt e (lastOfMonth cur)) :
    e.year = cur.year ∧ e.month = cur.month := by
  obtain ⟨y, m, dd⟩ := cur
  obtain ⟨y2, m2, d2⟩ := e
  simp only [PyDate.le, PyDate.lt, lastOfMonth] at *
  omega

/-- If a valid date is strictly after the last day of another date's month,
it lies in a strictly later month. -/
theorem month_advance_of_lastOfMonth_lt {cur e : PyDate} (he : e.IsValid)
    (h : PyDate.lt (lastOfMonth cur) e) :
    cur.year < e.year ∨ (cur.year = e.year ∧ cur.month < e.month) := by
  obtain ⟨y, m, dd⟩ := cur
  obtain ⟨y2, m2, d2⟩ := e
  obtain ⟨-, -, -, -, hd2b⟩ := he
  simp only [PyDate.lt, lastOfMonth] at h ⊢
  rcases h with h | ⟨h1, h | ⟨h2, h3⟩⟩
  · exact Or.inl h
  · exact Or.inr ⟨h1, h⟩
  · exfalso
    subst h1
    subst h2
    simp only at hd2b
    omega

/-- The first day of the month after `cur` is at or before any valid date
in a strictly later month. -/
theorem firstOfNextMonth_le {cur e : PyDate} (he : e.IsValid)
    (hym : cur.year < e.year ∨ (cur.year = e.year ∧ cur.month < e.month)) :
    PyDate.le (firstOfNextMonth cur) e := by
  obtain ⟨y, m, dd⟩ := cur
  obtain ⟨y2, m2, d2⟩ := e
  obtain ⟨-, hm2a, hm2b, hd2a, -⟩ := he
  simp only at hym hm2a hm2b hd2a
  simp only [firstOfNextMonth]
  split <;> (simp only [PyDate.le]; omega)

/-- Invariant of the chunking loop of `_split_date_range_by_month`: started
at a valid `cur ≤ e` with fuel covering the remaining months, it emits a
nonempty chunk list that starts at `cur`, ends at `e`, has each next chunk
begin the day after the previous chunk ends, and keeps every chunk inside
one calendar month. -/
theorem splitGo_spec (e : PyDate) (he : e.IsValid) :
    ∀ fuel cur, cur.IsValid → PyDate.le cur e →
      monthIdx e + 1 ≤ monthIdx cur + fuel →
      (splitGo e fuel cur ≠ [] ∧
       (splitGo e fuel cur).head?.map Prod.fst = some cur ∧
       (splitGo e fuel cur).getLast?.map Prod.snd = some e ∧
       List.Chain' (fun p q => q.1 = nextDay p.2) (splitGo e fuel cur) ∧
       ∀ p ∈ splitGo e fuel cur,
         p.1.year = p.2.year ∧ p.1.month = p.2.month ∧ PyDate.le p.1 p.2) := by
  intro fuel
  induction fuel with
  | zero =>
    intro cur hv hle hfuel
    exfalso
    have h2 := monthIdx_le_of_le hv.2.2.1 he.2.1 hle
    omega
  | succ fuel ih =>
    intro cur hv hle hfuel
    have heq : splitGo e (fuel + 1) cur =
        (if minDate (lastOfMonth cur) e = e then
          [(cur, minDate (lastOfMonth cur) e)]
         else (cur, minDate (lastOfMonth cur) e) ::
           splitGo e fuel (firstOfNextMonth cur)) := by
      simp only [splitGo, if_pos hle]
    by_cases hce : minDate (lastOfMonth cur) e = e
    · rw [heq, if_pos hce, hce]
      refine ⟨by simp, by simp, by simp, by simp, ?_⟩
      intro p hp
      have hp' : p = (cur, e) := by simpa using hp
      subst hp'
      by_cases hlt : PyDate.lt e (lastOfMonth cur)
      · obtain ⟨h1, h2⟩ := same_month_of_between hle hlt
        exact ⟨h1.symm, h2.symm, hle⟩
      · have hLe : lastOfMonth cur = e := by
          have hmd : minDate (lastOfMonth cur) e = lastOfMonth cur := by
            simp [minDate, hlt]
          rw [← hce, hmd]
        refine ⟨?_, ?_, ?_⟩
        · rw [← hLe]; rfl
        · rw [← hLe]; rfl
        · rw [← hLe]; exact le_lastOfMonth hv
    · have hnlt : ¬ PyDate.lt e (lastOfMonth cur) := by
        intro hlt
        exact hce (by simp [minDate, hlt])
      have hcendL : minDate (lastOfMonth cur) e = lastOfMonth cur := by
        simp [minDate, hnlt]
      have hLne : lastOfMonth cur ≠ e := fun h => hce (by rw [hcendL, h])
      have hLlt : PyDate.lt (lastOfMonth cur) e :=
        pydate_lt_of_not_lt_of_ne hnlt hLne
      have hym := month_advance_of_lastOfMonth_lt he hLlt
      have hcv := firstOfNextMonth_valid hv
      have hcle := firstOfNextMonth_le he hym
      have hfm := monthIdx_firstOfNextMonth hv.2.2.1
      obtain ⟨hne, hhead, hlast, hchain, hmonths⟩ :=
        ih (firstOfNextMonth cur) hcv hcle (by omega)
      obtain ⟨b, t, htl⟩ : ∃ b t,
          splitGo e fuel (firstOfNextMonth cur) = b :: t := by
        rcases h : splitGo e fuel (firstOfNextMonth cur) with _ | ⟨b, t⟩
        · exact absurd h hne
        · exact ⟨b, t, rfl⟩
      rw [htl] at hhead hlast hchain hmonths
      rw [heq, if_neg hce, hcendL, htl]
      refine ⟨by simp, by simp, ?_, ?_, ?_⟩
      · rw [List.getLast?_cons_cons]
        exact hlast
      · refine List.chain'_cons'.mpr ⟨?_, hchain⟩
        intro q hq
        simp only [List.head?_cons, Option.mem_some_iff] at hq
        subst hq
        have hb : b.1 = firstOfNextMonth cur := by simpa using hhead
        rw [hb, nextDay_lastOfMonth]
      · intro p hp
        rcases List.mem_cons.mp hp with hp' | hp'
        · subst hp'
          exact ⟨rfl, rfl, le_lastOfMonth hv⟩
        · exact hmonths p hp'

/-- C3.  `_split_date_range_by_month` on valid dates: for `start > end` it
returns `[]` rather than raising; for `start ≤ end` it returns a nonempty
ordered chunk list that exactly tiles `[start, end]` — the first chunk
starts at `start`, the last ends at `end`, each following chunk starts the
day after the previous one ends (no gap, no overlap), every chunk runs
forward, and each chunk's start and end lie in the same calendar month. -/
theorem split_date_range_tiles (s e : PyDate) (hs : s.IsValid) (he : e.IsValid) :
    (PyDate.lt e s → splitDateRangeByMonth s e = []) ∧
    (PyDate.le s e →
      splitDateRangeByMonth s e ≠ [] ∧
      (splitDateRangeByMonth s e).head?.map Prod.fst = some s ∧
      (splitDateRangeByMonth s e).getLast?.map Prod.snd = some e ∧
      List.Chain' (fun p q => q.1 = nextDay p.2) (splitDateRangeByMonth s e) ∧
      ∀ p ∈ splitDateRangeByMonth s e,
        p.1.year = p.2.year ∧ p.1.month = p.2.month ∧ PyDate.le p.1 p.2) := by
  constructor
  · intro h
    simp [splitDateRangeByMonth, h]
  · intro hle
    have hnlt : ¬ PyDate.lt e s := pydate_not_lt_of_le hle
    have hmi := monthIdx_le_of_le hs.2.2.1 he.2.1 hle
    have heq : splitDateRangeByMonth s e =
        splitGo e (monthIdx e + 1 - monthIdx s) s := by
      simp [splitDateRangeByMonth, hnlt]
    rw [heq]
    exact splitGo_spec e he (monthIdx e + 1 - monthIdx s) s hs hle (by omega)

/-- Witness for `split_date_range_tiles` on the concrete range
2024-11-15 .. 2025-02-10 (four chunks, crossing a year boundary). -/
theorem split_date_range_tiles_witness :
    (⟨2024, 11, 15⟩ : PyDate).IsValid ∧ (⟨2025, 2, 10⟩ : PyDate).IsValid ∧
    ((PyDate.lt ⟨2025, 2, 10⟩ ⟨2024, 11, 15⟩ →
       splitDateRangeByMonth ⟨2024, 11, 15⟩ ⟨2025, 2, 10⟩ = []) ∧
     (PyDate.le ⟨2024, 11, 15⟩ ⟨2025, 2, 10⟩ →
       splitDateRangeByMonth ⟨2024, 11, 15⟩ ⟨2025, 2, 10⟩ ≠ [] ∧
       (splitDateRangeByMonth ⟨2024, 11, 15⟩ ⟨2025, 2, 10⟩).head?.map Prod.fst =
         some ⟨2024, 11, 15⟩ ∧
       (splitDateRangeByMonth ⟨2024, 11, 15⟩ ⟨2025, 2, 10⟩).getLast?.map Prod.snd =
         some ⟨2025, 2, 10⟩ ∧
       List.Chain' (fun p q => q.1 = nextDay p.2)
         (splitDateRangeByMonth ⟨2024, 11, 15⟩ ⟨2025, 2, 10⟩) ∧
       ∀ p ∈ splitDateRangeByMonth ⟨2024, 11, 15⟩ ⟨2025, 2, 10⟩,
         p.1.year = p.2.year ∧ p.1.month = p.2.month ∧ PyDate.le p.1 p.2)) :=
  ⟨by decide, by decide,
   split_date_range_tiles ⟨2024, 11, 15⟩ ⟨2025, 2, 10⟩ (by decide) (by decide)⟩

/-- One retry batch is the fold of its per-invoice updates. -/
theorem processRetryBatch_eq_foldl (invoices : List GdtInvoice)
    (fetch : GdtInvoice → InvoiceFetchResult) (st : RetryState)
    (batch : List GdtInvoice) :
    processRetryBatch invoices fetch st batch =
      batch.foldl (fun st inv => applyRetryResult invoices st (inv, fetch inv)) st := by
  simp [processRetryBatch, List.foldl_map]

/-- The retry batch loop visits exactly the failed invoices from index `i`
on, once each, in order: batching affects only the sleeps. -/
theorem retryLoopGo_eq_foldl (invoices : List GdtInvoice)
    (fetch : GdtInvoice → InvoiceFetchResult) (failedInvs : List GdtInvoice) :
    ∀ fuel i st, failedInvs.length + 1 ≤ fuel + i →
      retryLoopGo invoices fetch failedInvs fuel i st =
        (failedInvs.drop i).foldl
          (fun st inv => applyRetryResult invoices st (inv, fetch inv)) st := by
  intro fuel
  induction fuel with
  | zero =>
    intro i st hfuel
    rw [List.drop_eq_nil_of_le (by omega)]
    rfl
  | succ fuel ih =>
    intro i st hfuel
    by_cases hi : i < failedInvs.length
    · have hstep : retryLoopGo invoices fetch failedInvs (fuel + 1) i st =
          retryLoopGo invoices fetch failedInvs fuel (i + retryBatchSize)
            (processRetryBatch invoices fetch st
              ((failedInvs.drop i).take retryBatchSize)) := by
        simp only [retryLoopGo, if_pos hi]
      rw [hstep, ih (i + retryBatchSize) _ (by simp [retryBatchSize]; omega),
        processRetryBatch_eq_foldl, ← List.foldl_append]
      have hsplit : (failedInvs.drop i).take retryBatchSize ++
          failedInvs.drop (i + retryBatchSize) = failedInvs.drop i := by
        rw [← List.drop_drop, List.take_append_drop]
      rw [hsplit]
    · have hstep : retryLoopGo invoices fetch failedInvs (fuel + 1) i st = st := by
        simp only [retryLoopGo, if_neg hi]
      rw [hstep, List.drop_eq_nil_of_le (by omega)]
      rfl

/-- `_get_failed_invoices` picks exactly the invoices paired with a failed
result slot, in slot order. -/
theorem getFailedInvoices_enumFrom (invoices : List GdtInvoice) :
    ∀ (results : List InvoiceFetchResult) (n : Nat),
      n + results.length ≤ invoices.length →
      (results.enumFrom n).filterMap (fun ir =>
          if ir.2.success then none else invoices.get? ir.1) =
        (((invoices.drop n).zip results).filter (fun p => !p.2.success)).map
          Prod.fst := by
  intro results
  induction results with
  | nil => intro n _; simp
  | cons r rs ih =>
    intro n hn
    have hlt : n < invoices.length := by simp at hn; omega
    rw [List.drop_eq_get_cons hlt]
    simp only [List.enumFrom, List.filterMap_cons, List.zip_cons_cons,
      List.filter_cons]
    by_cases hr : r.success
    · simp only [hr, if_true, Bool.not_true]
      rw [ih (n + 1) (by simp at hn ⊢; omega)]
      simp
    · simp only [hr, if_false, Bool.not_false]
      rw [List.get?_eq_get hlt]
      rw [ih (n + 1) (by simp at hn ⊢; omega)]
      simp

/-- Invariant of the per-invoice retry update fold: over a duplicate-free
list of invoices drawn from `invoices`, each successful retry moves one
unit from `failed` to `completed` and overwrites exactly its own slot;
slots of invoices outside the list are untouched. -/
theorem retryFold_spec (invoices : List GdtInvoice)
    (fetch : GdtInvoice → InvoiceFetchResult) :
    ∀ (l : List GdtInvoice) (st : RetryState),
      st.results.length = invoices.length →
      (∀ a ∈ l, a ∈ invoices) → l.Nodup →
      ((l.foldl (fun st inv => applyRetryResult invoices st (inv, fetch inv))
          st).results.length = st.results.length ∧
       (l.foldl (fun st inv => applyRetryResult invoices st (inv, fetch inv))
          st).completed = st.completed +
            ((l.filter (fun a => (fetch a).success)).length : Int) ∧
       (l.foldl (fun st inv => applyRetryResult invoices st (inv, fetch inv))
          st).failed = st.failed -
            ((l.filter (fun a => (fetch a).success)).length : Int) ∧
       (∀ j : Nat, (∀ a ∈ l, invoices.indexOf a ≠ j) →
         (l.foldl (fun st inv => applyRetryResult invoices st (inv, fetch inv))
            st).results.get? j = st.results.get? j) ∧
       (∀ a ∈ l, (fetch a).success = true →
         (l.foldl (fun st inv => applyRetryResult invoices st (inv, fetch inv))
            st).results.get? (invoices.indexOf a) = some (fetch a))) := by
  intro l
  induction l with
  | nil =>
    intro st hst hmem hnd
    exact ⟨rfl, by simp, by simp, fun j _ => rfl, by simp⟩
  | cons a l ih =>
    intro st hst hmem hnd
    obtain ⟨hanotl, hlnd⟩ := List.nodup_cons.mp hnd
    have hainv : a ∈ invoices := hmem a (List.mem_cons_self a l)
    have hmem2 : ∀ b ∈ l, b ∈ invoices := fun b hb =>
      hmem b (List.mem_cons_of_mem a hb)
    have hfold : (a :: l).foldl
        (fun st inv => applyRetryResult invoices st (inv, fetch inv)) st =
        l.foldl (fun st inv => applyRetryResult invoices st (inv, fetch inv))
          (applyRetryResult invoices st (a, fetch a)) := rfl
    set st1 := applyRetryResult invoices st (a, fetch a) with hst1
    have hst1len : st1.results.length = invoices.length := by
      rw [hst1]
      unfold applyRetryResult
      by_cases h : (fetch a).success <;> simp [h, hst]
    obtain ⟨ih1, ih2, ih3, ih4, ih5⟩ := ih st1 hst1len hmem2 hlnd
    rw [hfold]
    by_cases h : (fetch a).success
    · have hres : st1.results = st.results.set (invoices.indexOf a) (fetch a) := by
        simp [hst1, applyRetryResult, h]
      have hcomp : st1.completed = st.completed + 1 := by
        simp [hst1, applyRetryResult, h]
      have hfail : st1.failed = st.failed - 1 := by
        simp [hst1, applyRetryResult, h]
      have hflt : (a :: l).filter (fun a => (fetch a).success) =
          a :: l.filter (fun a => (fetch a).success) := by
        simp [List.filter_cons, h]
      refine ⟨?_, ?_, ?_, ?_, ?_⟩
      · rw [ih1, hres, List.length_set]
      · rw [ih2, hcomp, hflt]
        push_cast [List.length_cons]
        omega
      · rw [ih3, hfail, hflt]
        push_cast [List.length_cons]
        omega
      · intro j hj
        rw [ih4 j (fun b hb => hj b (List.mem_cons_of_mem a hb)), hres,
          List.get?_set_ne _ _ (hj a (List.mem_cons_self a l))]
      · intro b hb hbs
        rcases List.mem_cons.mp hb with heq | hb2
        · subst heq
          have hju : ∀ c ∈ l, invoices.indexOf c ≠ invoices.indexOf b := by
            intro c hc heq2
            exact hanotl (((List.indexOf_inj (hmem2 c hc) hainv).mp heq2) ▸ hc)
          have hidxlt : invoices.indexOf b < st.results.length := by
            rw [hst]
            exact List.indexOf_lt_length.mpr hainv
          rw [ih4 _ hju, hres, List.get?_set_eq, List.get?_eq_get hidxlt]
          rfl
        · exact ih5 b hb2 hbs
    · have hid : st1 = st := by
        simp [hst1, applyRetryResult, h]
      have hflt : (a :: l).filter (fun a => (fetch a).success) =
          l.filter (fun a => (fetch a).success) := by
        simp [List.filter_cons, h]
      refine ⟨?_, ?_, ?_, ?_, ?_⟩
      · rw [ih1, hid]
      · rw [ih2, hid, hflt]
      · rw [ih3, hid, hflt]
      · intro j hj
        rw [ih4 j (fun b hb => hj b (List.mem_cons_of_mem a hb)), hid]
      · intro b hb hbs
        rcases List.mem_cons.mp hb with heq | hb2
        · subst heq
          exact absurd hbs (by simp [h])
        · exact ih5 b hb2 hbs

/-- C5 (amended).  Provided the invoice list has no duplicate entries (slot
lookup in the retry pass goes through `self.invoices.index`, the first
occurrence comparing equal) and one Phase-1 result per invoice, the retry
pass replaces the Phase-1 result of every invoice that failed in Phase 1
and succeeds on retry at exactly that invoice's slot, and moves exactly one
unit per such invoice from `failed` to `completed` (the counter deltas equal
the number of such invoices). -/
theorem retry_promotion_nodup (invoices : List GdtInvoice)
    (results : List InvoiceFetchResult) (fetch : GdtInvoice → InvoiceFetchResult)
    (completed failed : Int)
    (hlen : results.length = invoices.length) (hnodup : invoices.Nodup) :
    (retryFailedInvoices invoices fetch ⟨results, completed, failed⟩).results.length
        = results.length ∧
    (retryFailedInvoices invoices fetch ⟨results, completed, failed⟩).completed
        = completed + (((getFailedInvoices invoices results).filter
            (fun a => (fetch a).success)).length : Int) ∧
    (retryFailedInvoices invoices fetch ⟨results, completed, failed⟩).failed
        = failed - (((getFailedInvoices invoices results).filter
            (fun a => (fetch a).success)).length : Int) ∧
    (∀ (i : Nat) (inv : GdtInvoice) (r : InvoiceFetchResult),
      invoices.get? i = some inv → results.get? i = some r →
      r.success = false → (fetch inv).success = true →
      (retryFailedInvoices invoices fetch ⟨results, completed, failed⟩).results.get? i
        = some (fetch inv)) := by
  have hflat : retryFailedInvoices invoices fetch ⟨results, completed, failed⟩ =
      (getFailedInvoices invoices results).foldl
        (fun st inv => applyRetryResult invoices st (inv, fetch inv))
        ⟨results, completed, failed⟩ := by
    simp only [retryFailedInvoices]
    rw [retryLoopGo_eq_foldl invoices fetch (getFailedInvoices invoices results)
        ((getFailedInvoices invoices results).length + 1) 0
        ⟨results, completed, failed⟩ (by omega), List.drop_zero]
  have hF : getFailedInvoices invoices results =
      ((invoices.zip results).filter (fun p => !p.2.success)).map Prod.fst := by
    have h0 := getFailedInvoices_enumFrom invoices results 0 (by omega)
    simpa [getFailedInvoices, List.enum, List.drop_zero] using h0
  have hsub : (getFailedInvoices invoices results).Sublist invoices := by
    rw [hF]
    have h1 : ((invoices.zip results).filter (fun p => !p.2.success)).Sublist
        (invoices.zip results) := List.filter_sublist _
    have h2 := h1.map Prod.fst
    rwa [List.map_fst_zip invoices results (by omega)] at h2
  have hFnd : (getFailedInvoices invoices results).Nodup :=
    List.Nodup.sublist hsub hnodup
  have hFmem : ∀ a ∈ getFailedInvoices invoices results, a ∈ invoices :=
    fun a ha => hsub.subset ha
  obtain ⟨g1, g2, g3, g4, g5⟩ := retryFold_spec invoices fetch
    (getFailedInvoices invoices results) ⟨results, completed, failed⟩
    hlen hFmem hFnd
  refine ⟨?_, ?_, ?_, ?_⟩
  · rw [hflat]; exact g1
  · rw [hflat]; exact g2
  · rw [hflat]; exact g3
  · intro i inv r hinv hres hrf hfs
    have hzip : (invoices.zip results).get? i = some (inv, r) := by
      have hz : invoices.zip results = List.zipWith Prod.mk invoices results := rfl
      have hinv2 : invoices[i]? = some inv := by
        rw [← List.get?_eq_getElem?]; exact hinv
      have hres2 : results[i]? = some r := by
        rw [← List.get?_eq_getElem?]; exact hres
      rw [hz, List.get?_zip_with]
      simp [hinv2, hres2]
    have hmemzip : (inv, r) ∈ invoices.zip results := List.get?_mem hzip
    have hfilter : (inv, r) ∈ (invoices.zip results).filter
        (fun p => !p.2.success) :=
      List.mem_filter.mpr ⟨hmemzip, by simp [hrf]⟩
    have hinF : inv ∈ getFailedInvoices invoices results := by
      rw [hF]
      exact List.mem_map.mpr ⟨(inv, r), hfilter, rfl⟩
    have hinvmem : inv ∈ invoices := List.get?_mem hinv
    have hmi : invoices.indexOf inv < invoices.length :=
      List.indexOf_lt_length.mpr hinvmem
    obtain ⟨hi, hgi⟩ := List.get?_eq_some.mp hinv
    have hgidx : invoices.get ⟨invoices.indexOf inv, hmi⟩ = inv :=
      List.indexOf_get hmi
    have hfin : (⟨invoices.indexOf inv, hmi⟩ : Fin invoices.length) = ⟨i, hi⟩ :=
      hnodup.get_inj_iff.mp (by rw [hgidx, hgi])
    have hidx : invoices.indexOf inv = i := by
      simpa using congrArg Fin.val hfin
    rw [hflat, ← hidx]
    exact g5 inv hinF hfs

/-- Witness for `retry_promotion_nodup`: two distinct invoices, the second
failed in Phase 1 with a rate-limit message and succeeds on retry; its slot
is replaced and `completed` gains the one promoted invoice. -/
theorem retry_promotion_nodup_witness :
    ([okFetchResult, failedFetchResult1] : List InvoiceFetchResult).length =
      ([mkTestInvoice 0, mkTestInvoice 1] : List GdtInvoice).length ∧
    ([mkTestInvoice 0, mkTestInvoice 1] : List GdtInvoice).Nodup ∧
    (retryFailedInvoices [mkTestInvoice 0, mkTestInvoice 1] retryMixedOracle
        ⟨[okFetchResult, failedFetchResult1], 1, 1⟩).completed =
      1 + (((getFailedInvoices [mkTestInvoice 0, mkTestInvoice 1]
          [okFetchResult, failedFetchResult1]).filter
            (fun a => (retryMixedOracle a).success)).length : Int) ∧
    (retryFailedInvoices [mkTestInvoice 0, mkTestInvoice 1] retryMixedOracle
        ⟨[okFetchResult, failedFetchResult1], 1, 1⟩).results.get? 1 =
      some (retryMixedOracle (mkTestInvoice 1)) :=
  ⟨by decide, by decide,
   (retry_promotion_nodup [mkTestInvoice 0, mkTestInvoice 1]
      [okFetchResult, failedFetchResult1] retryMixedOracle 1 1
      (by decide) (by decide)).2.1,
   (retry_promotion_nodup [mkTestInvoice 0, mkTestInvoice 1]
      [okFetchResult, failedFetchResult1] retryMixedOracle 1 1
      (by decide) (by decide)).2.2.2 1 (mkTestInvoice 1) failedFetchResult1
      (by decide) (by decide) (by decide) (by decide)⟩
